import Mathlib

/-
Verification of the acoustic-gesture firmware (light-switch-esp32).

Shallow embedding of the firmware sources:
  * firmware/sketch_sep23a/sound.h   — the acquisition/FFT/classify/debounce loop
  * firmware/Relay.h                 — the relay actuator wrapper
  * firmware/sketch_sep23a/I2SDevice.h — the I2S capture wrapper

Floating-point values that the firmware manipulates (FFT magnitudes, the
dominant frequency, the classifier thresholds) are modelled over an ordered
field; every constant involved (31.25 = 16000/512, 2000, 5000, 6000) is
exactly representable in binary floating point and all operations performed
on them by the embedded code paths (comparison, multiplication by 31.25 of a
small integer) are exact, so the rational/real model is faithful.
Machine integers are modelled as Int with explicit wrap-around where the
C code truncates.
-/

set_option maxRecDepth 40000

/-- Configured sample rate in Hz (sound.h: SAMPLE_RATE). -/
def SAMPLE_RATE : Nat := 16000

/-- Configured frame size in samples (sound.h: SAMPLES). -/
def SAMPLES : Nat := 512

/-- Truncation of an Int to the int16_t range, as performed by the C
assignment int16_t sample16 = ...; wrap-around modulo 2^16 into
the interval from -32768 up to (excluding) 32768. -/
def toInt16 (x : Int) : Int := (x + 32768) % 65536 - 32768

/-- One sample of the Frame Preprocessor (sound.h line 63-64):
int16_t sample16 = buffer[i] >> 14; vReal[i] = (float)sample16.
The arithmetic right shift of a signed 32-bit word by 14 is floor
division by 2^14 = 16384 (gcc: signed right shift is arithmetic); the
result is then truncated to int16_t. The final cast to float is exact
because the int16_t range lies far below 2^24. -/
def preprocessSample (w : Int) : Int := toInt16 (Int.fdiv w 16384)

/-- The mapping that the specification text describes for the preprocessor:
right-shift by 14 and cast to float, with no 16-bit truncation. Kept
separate so it can be compared with the code's preprocessSample. -/
def specShiftedSample (w : Int) : Int := Int.fdiv w 16384

/-- The whole preprocessing step of one cycle (sound.h lines 62-66):
vReal[i] = (float)(int16_t)(buffer[i] >> 14) and vImag[i] = 0.0 for
every index of the frame. -/
def preprocessFrame (buffer : Nat → Int) : (Nat → Int) × (Nat → Int) :=
  (fun i => preprocessSample (buffer i), fun _ => 0)

/-- The running-maximum scan of sound.h lines 74-79, one recursion step per
loop iteration: fuel counts the remaining iterations, i is the current
bin index, peakIndex and peak are the mutable locals of the C loop. -/
def findPeakGo {α : Type} [LinearOrderedField α] (v : Nat → α) :
    Nat → Nat → Nat → α → Nat × α
  | 0, _, peakIndex, peak => (peakIndex, peak)
  | fuel+1, i, peakIndex, peak =>
    if v i > peak then findPeakGo v fuel (i+1) i (v i)
    else findPeakGo v fuel (i+1) peakIndex peak

/-- Peak extraction over the magnitude bins (sound.h lines 72-79):
float peak = 0.0; int peakIndex = 0; for (i = 1; i < SAMPLES/2; i++)
if (vReal[i] > peak) update. The loop body runs for i = 1 .. 255. -/
def findPeak {α : Type} [LinearOrderedField α] (v : Nat → α) : Nat × α :=
  findPeakGo v 255 1 0 0

/-- Conversion from peak bin index to the dominant frequency (sound.h
line 81): peakIndex * ((float)SAMPLE_RATE / SAMPLES); 16000/512 = 31.25
is exact in floating point, and so is its product with a bin index. -/
def dominantFreq {α : Type} [LinearOrderedField α] (peakIndex : Nat) : α :=
  (peakIndex : α) * ((16000 : α) / 512)

/-- The Event Classifier (sound.h line 84):
bool isSnap = (dominantFreq > 2000 && dominantFreq < 5000 && peak > 6000). -/
def classify {α : Type} [LinearOrderedField α] (f m : α) : Bool :=
  decide (f > 2000) && decide (f < 5000) && decide (m > 6000)

/-- State of a Relay object (Relay.h): pin and invertLogic are set by the
constructor and never change; state is the recorded logical state; level
records the last electrical level written with digitalWrite (true = HIGH). -/
structure Relay where
  pin : Nat
  state : Bool
  invertLogic : Bool
  level : Bool
deriving DecidableEq, Repr

/-- Relay::on (Relay.h lines 33-39): state = true;
digitalWrite(pin, invertLogic ? LOW : HIGH). -/
def Relay.on (r : Relay) : Relay :=
  { r with state := true, level := !r.invertLogic }

/-- Relay::off (Relay.h lines 42-48): state = false;
digitalWrite(pin, invertLogic ? HIGH : LOW). -/
def Relay.off (r : Relay) : Relay :=
  { r with state := false, level := r.invertLogic }

/-- Relay::toggle (Relay.h lines 51-57): if (state) off(); else on(). -/
def Relay.toggle (r : Relay) : Relay :=
  if r.state then r.off else r.on

/-- The electrical level that Relay::on / Relay::off write for a given
logical state under a given invertLogic setting. -/
def Relay.levelFor (invert : Bool) (s : Bool) : Bool :=
  if s then !invert else invert

/-- State of an I2SDevice object (I2SDevice.h), restricted to the fields
that its read method consults; no field is modified by read. -/
structure I2SDevice where
  initDone : Bool
  rxMode : Bool
  port : Nat
deriving DecidableEq, Repr

/-- Result of one I2SDevice::read call: the returned byte count, whether
the underlying driver function i2s_read was invoked at all, and the device
state after the call. -/
structure I2SReadResult where
  bytes : Nat
  driverCalled : Bool
  dev : I2SDevice
deriving DecidableEq, Repr

/-- I2SDevice::read (I2SDevice.h lines 112-127). The underlying driver
call i2s_read is external; its outcome is modelled by the parameters
driverBytes (the byte count it would report through bytes_read) and
driverErr (whether it would return an error code, which the method only
logs and does not propagate: bytes_read is returned regardless). When
the device is not in the initialized state or not in RX mode, the method
returns 0 without touching the driver and without changing any field. -/
def I2SDevice.read (d : I2SDevice) (driverBytes : Nat) (driverErr : Bool) :
    I2SReadResult :=
  if !d.initDone then ⟨0, false, d⟩
  else if !d.rxMode then ⟨0, false, d⟩
  else ⟨driverBytes, true, d⟩

/-- Persistent state of the sound.h sketch across loop() iterations:
time models the value that millis() would return at the start of the next
iteration (Nat milliseconds; the 32-bit wrap of millis after 49.7 days is
not modelled), relay the global Relay object, snapCount and lastSnapTime
the two file-scope debounce globals (lastSnapTime is written by no code
path of loop; snapCount is only ever reset to 0). -/
structure LoopState where
  time : Nat
  relay : Relay
  snapCount : Int
  lastSnapTime : Nat
deriving DecidableEq, Repr

/-- Per-cycle inputs of one loop() iteration that come from outside the
sketch: readErr and bytesRead are the outcome of the i2s_read driver call
(the error code the call returns and the count it stores through its
out-parameter: loop discards both), readTime the real time in ms that the
blocking read plus the in-cycle FFT processing consume before the
classifier runs, and mags the magnitude array that the arduinoFFT library
leaves in vReal for this cycle's frame. -/
structure CycleInput where
  readErr : Bool
  bytesRead : Nat
  readTime : Nat
  mags : Nat → ℚ

/-- One iteration of loop() (sound.h lines 55-99). Returns the state for
the next iteration, the timestamp of the relay trigger when one fired this
cycle, and the timestamp at which the classifier was evaluated. After the
peak scan and the classification, a snap toggles the relay, resets
snapCount and blocks in delay(300); every iteration ends with delay(20).
The error code and byte count of i2s_read appear nowhere in the body: the
frame is processed unconditionally. -/
def loopCycle (s : LoopState) (inp : CycleInput) :
    LoopState × Option Nat × Nat :=
  let p := findPeak inp.mags
  let isSnap := classify (dominantFreq p.1 : ℚ) p.2
  let t := s.time + inp.readTime
  if isSnap then
    (⟨t + 300 + 20, s.relay.toggle, 0, s.lastSnapTime⟩, some t, t)
  else
    (⟨t + 20, s.relay, s.snapCount, s.lastSnapTime⟩, none, t)

/-- Timestamps of the relay triggers that a run of the loop over the given
list of per-cycle inputs produces, in order. -/
def runLoop : LoopState → List CycleInput → List Nat
  | _, [] => []
  | s, inp :: rest =>
    match loopCycle s inp with
    | (s1, some t, _) => t :: runLoop s1 rest
    | (s1, none, _) => runLoop s1 rest

/-- Timestamps at which the classifier is evaluated during a run of the
loop over the given list of per-cycle inputs, one per cycle, in order. -/
def classifyTimes : LoopState → List CycleInput → List Nat
  | _, [] => []
  | s, inp :: rest =>
    (loopCycle s inp).2.2 :: classifyTimes (loopCycle s inp).1 rest

/-- Modelled from the spec: the windowing step of the Spectral Analyzer
(section 4.3 step 1). The implementation is FFT.windowing from the
arduinoFFT library, which is not part of this repository; the spec asks
for a pointwise multiplication of the real array by a Hamming window.
Only the pointwise-product shape matters for the theorems below. -/
noncomputable def windowing (x : Nat → ℝ) : Nat → ℝ :=
  fun j => x j * (0.54 - 0.46 * Real.cos (2 * Real.pi * j / (512 - 1)))

/-- Modelled from the spec: the forward discrete spectral transform of the
Spectral Analyzer (section 4.3 step 2; FFT.compute of the arduinoFFT
library, not part of this repository), as the textbook DFT of the
real-valued windowed frame of 512 samples. -/
noncomputable def dft (x : Nat → ℝ) : Nat → ℂ :=
  fun k => ∑ j ∈ Finset.range 512,
    (x j : ℂ) * Complex.exp (-(2 * Real.pi * Complex.I * j * k) / 512)

/-- Modelled from the spec: the magnitude reduction of the Spectral
Analyzer (section 4.3 step 3; FFT.complexToMagnitude of the arduinoFFT
library, not part of this repository): per bin the Euclidean norm of the
complex value. -/
noncomputable def complexToMagnitude (X : Nat → ℂ) : Nat → ℝ :=
  fun k => Complex.abs (X k)

/-- Modelled from the spec: the full Spectral Analyzer
(windowing, then forward transform, then magnitude; section 4.3). -/
noncomputable def analyze (x : Nat → ℝ) : Nat → ℝ :=
  complexToMagnitude (dft (windowing x))

/-- The frame pipeline of one cycle from raw samples to the classifier
verdict (sound.h lines 62-84), with the spectral stage spec-modelled:
preprocess the raw words, analyze, scan for the peak, classify. -/
noncomputable def framePipeline (buffer : Nat → Int) : Bool :=
  let pre := preprocessFrame buffer
  let mags := analyze (fun i => ((pre.1 i : Int) : ℝ))
  let p := findPeak mags
  classify (dominantFreq p.1 : ℝ) p.2

/-- Magnitude array with a single spike: bin 96 (96 * 31.25 = 3000 Hz, inside
the band) with magnitude 6001, above the 6000 threshold; a qualifying frame. -/
def snapMags : Nat → ℚ := fun i => if i = 96 then 6001 else 0

/-- The all-zero magnitude array. -/
def zeroMags : Nat → ℚ := fun _ => 0

/-- Magnitude array with a single small spike at bin 3, for witnesses. -/
def witMags : Nat → ℚ := fun i => if i = 3 then 7 else 0

/-- Initial sketch state: millis() = 0, the global Relay relay(20) after
relay.begin(); relay.off() (state false, HIGH-active logic, LOW written),
snapCount = 0, lastSnapTime = 0. -/
def s0 : LoopState := ⟨0, ⟨20, false, false, false⟩, 0, 0⟩

/-- Two consecutive cycles, each a successful 2048-byte read taking 32 ms
and each carrying a qualifying frame. -/
def trace2 : List CycleInput :=
  [⟨false, 2048, 32, snapMags⟩, ⟨false, 2048, 32, snapMags⟩]

/-- Whether a timestamp c falls strictly inside the 300 ms window that
starts at t (exclusive at t). -/
def inWindow (t c : Nat) : Bool := decide (t < c) && decide (c < t + 300)

/-- The all-zero raw frame: every 32-bit sample word is 0. -/
def zeroBuffer : Nat → Int := fun _ => 0

/-- Unfolding of one loop iteration whose frame classifies as a snap. -/
theorem loopCycle_snap (s : LoopState) (inp : CycleInput)
    (h : classify (dominantFreq (findPeak inp.mags).1 : ℚ) (findPeak inp.mags).2 = true) :
    loopCycle s inp =
      (⟨s.time + inp.readTime + 300 + 20, s.relay.toggle, 0, s.lastSnapTime⟩,
        some (s.time + inp.readTime), s.time + inp.readTime) := by
  simp [loopCycle, h]

/-- Unfolding of one loop iteration whose frame does not classify as a snap. -/
theorem loopCycle_nosnap (s : LoopState) (inp : CycleInput)
    (h : classify (dominantFreq (findPeak inp.mags).1 : ℚ) (findPeak inp.mags).2 = false) :
    loopCycle s inp =
      (⟨s.time + inp.readTime + 20, s.relay, s.snapCount, s.lastSnapTime⟩,
        none, s.time + inp.readTime) := by
  simp [loopCycle, h]

/-- Every trigger timestamp of a run is at least the starting clock value. -/
theorem runLoop_time_lb (inputs : List CycleInput) :
    ∀ (s : LoopState) (x : Nat), x ∈ runLoop s inputs → s.time ≤ x := by
  induction inputs with
  | nil => intro s x hx; simp [runLoop] at hx
  | cons inp rest ih =>
    intro s x hx
    by_cases h : classify (dominantFreq (findPeak inp.mags).1 : ℚ) (findPeak inp.mags).2
    · rw [runLoop, loopCycle_snap s inp h] at hx
      simp at hx
      rcases hx with hx | hx
      · omega
      · have := ih _ _ hx
        simp at this
        omega
    · rw [runLoop, loopCycle_nosnap s inp (by simpa using h)] at hx
      simp at hx
      have := ih _ _ hx
      simp at this
      omega

/-- Every classification timestamp of a run is at least the starting clock
value. -/
theorem classifyTimes_time_lb (inputs : List CycleInput) :
    ∀ (s : LoopState) (c : Nat), c ∈ classifyTimes s inputs → s.time ≤ c := by
  induction inputs with
  | nil => intro s c hc; simp [classifyTimes] at hc
  | cons inp rest ih =>
    intro s c hc
    by_cases h : classify (dominantFreq (findPeak inp.mags).1 : ℚ) (findPeak inp.mags).2
    · rw [classifyTimes, loopCycle_snap s inp h] at hc
      simp at hc
      rcases hc with hc | hc
      · omega
      · have := ih _ _ hc
        simp at this
        omega
    · rw [classifyTimes, loopCycle_nosnap s inp (by simpa using h)] at hc
      simp at hc
      rcases hc with hc | hc
      · omega
      · have := ih _ _ hc
        simp at this
        omega

/-- C1: for every sequence of frames, each cycle fires at most one trigger
and after an accepted trigger the next trigger timestamp is at least the
300 ms refractory duration later (the code enforces this by blocking in
delay(300) after the toggle), so at most one trigger fires within the
refractory window of the prior accepted trigger. Stated for arbitrary
frames, which covers in particular sequences of frames that each classify
as an event. -/
theorem debounce_refractory_spacing (s : LoopState) (inputs : List CycleInput) :
    (runLoop s inputs).Pairwise (fun t1 t2 => t1 + 300 ≤ t2) := by
  induction inputs generalizing s with
  | nil => simp [runLoop]
  | cons inp rest ih =>
    by_cases h : classify (dominantFreq (findPeak inp.mags).1 : ℚ) (findPeak inp.mags).2
    · rw [runLoop, loopCycle_snap s inp h]
      simp only [List.pairwise_cons]
      constructor
      · intro x hx
        have := runLoop_time_lb rest _ x hx
        simp at this
        omega
      · exact ih _
    · rw [runLoop, loopCycle_nosnap s inp (by simpa using h)]
      exact ih _

/-- C2 (amended): after a trigger the sketch blocks in delay(300) (plus the
20 ms loop delay), so no classifier evaluation at all falls strictly inside
the refractory window after a trigger: every classification timestamp is
either at or before the trigger, or at least 300 ms after it. -/
theorem refractory_no_classification (s : LoopState) (inputs : List CycleInput)
    (t c : Nat) (ht : t ∈ runLoop s inputs) (hc : c ∈ classifyTimes s inputs) :
    c ≤ t ∨ t + 300 ≤ c := by
  induction inputs generalizing s with
  | nil => simp [runLoop] at ht
  | cons inp rest ih =>
    by_cases h : classify (dominantFreq (findPeak inp.mags).1 : ℚ) (findPeak inp.mags).2
    · rw [runLoop, loopCycle_snap s inp h] at ht
      rw [classifyTimes, loopCycle_snap s inp h] at hc
      simp at ht hc
      rcases ht with ht | ht
      · rcases hc with hc | hc
        · omega
        · have := classifyTimes_time_lb rest _ c hc
          simp at this
          omega
      · rcases hc with hc | hc
        · have := runLoop_time_lb rest _ t ht
          simp at this
          omega
        · exact ih _ ht hc
    · rw [runLoop, loopCycle_nosnap s inp (by simpa using h)] at ht
      rw [classifyTimes, loopCycle_nosnap s inp (by simpa using h)] at hc
      simp at ht hc
      rcases hc with hc | hc
      · have := runLoop_time_lb rest _ t ht
        simp at this
        omega
      · exact ih _ ht hc

/-- A frame carrying snapMags classifies as a snap: the peak scan finds
bin 96 with magnitude 6001, bin 96 maps to 96 * 31.25 = 3000 Hz inside
the (2000, 5000) band, and 6001 exceeds the 6000 threshold. -/
theorem snapMags_classifies :
    classify (dominantFreq (findPeak snapMags).1 : ℚ) (findPeak snapMags).2 = true := by
  have h : findPeak snapMags = (96, 6001) := by decide
  rw [h]
  norm_num [classify, dominantFreq]

/-- One loop iteration on a snapMags frame, fully evaluated: the relay
toggles and the trigger fires at the classification timestamp. -/
theorem loopCycle_snapMags (s : LoopState) (e : Bool) (b r : Nat) :
    loopCycle s ⟨e, b, r, snapMags⟩ =
      (⟨s.time + r + 300 + 20, s.relay.toggle, 0, s.lastSnapTime⟩,
        some (s.time + r), s.time + r) :=
  loopCycle_snap s ⟨e, b, r, snapMags⟩ snapMags_classifies

/-- The two-frame qualifying trace evaluated: triggers at 32 and 384. -/
theorem runLoop_trace2 : runLoop s0 trace2 = [32, 384] := by
  simp [runLoop, loopCycle_snapMags, s0, trace2]

/-- The two-frame qualifying trace evaluated: the classifier runs exactly
twice, at 32 and at 384. -/
theorem classifyTimes_trace2 : classifyTimes s0 trace2 = [32, 384] := by
  simp [classifyTimes, loopCycle_snapMags, s0, trace2]

/-- C2 (counterexample to the claim as stated): with back-to-back
qualifying frames, the trigger fires at t = 32 and the only other
classifier evaluation happens at t = 384, after the 300 ms refractory
window (32, 332) — no cycle's classification is evaluated (and discarded)
inside the window, because the sketch is blocked in delay(300): there is
no Refractory state that is checked at the start of a cycle. -/
theorem refractory_classifier_not_evaluated_cex :
    runLoop s0 trace2 = [32, 384] ∧
    classifyTimes s0 trace2 = [32, 384] ∧
    (classifyTimes s0 trace2).filter (inWindow 32) = [] := by
  refine ⟨runLoop_trace2, classifyTimes_trace2, ?_⟩
  rw [classifyTimes_trace2]
  decide

/-- C2 witness: the amended theorem applied to the concrete two-frame
trace, at the trigger timestamp 32 and the classification timestamp 384. -/
theorem refractory_no_classification_witness :
    32 ∈ runLoop s0 trace2 ∧ 384 ∈ classifyTimes s0 trace2 ∧
    (384 ≤ 32 ∨ 32 + 300 ≤ 384) :=
  ⟨by rw [runLoop_trace2]; simp, by rw [classifyTimes_trace2]; simp,
    refractory_no_classification s0 trace2 32 384
      (by rw [runLoop_trace2]; simp) (by rw [classifyTimes_trace2]; simp)⟩

/-- C5 (amended): loop() discards both the error code that i2s_read
returns and the byte count it reports; the iteration's behaviour is a
function of the frame contents and the elapsed time alone, so a failed or
short read is processed exactly like a successful one — no cycle is
skipped and no count of consecutive failures exists that could escalate. -/
theorem loopCycle_ignores_read_result (s : LoopState) (r : Nat)
    (mags : Nat → ℚ) (e1 e2 : Bool) (b1 b2 : Nat) :
    loopCycle s ⟨e1, b1, r, mags⟩ = loopCycle s ⟨e2, b2, r, mags⟩ := rfl

/-- C5 (counterexample to the claim as stated): a cycle whose i2s_read
fails (readErr = true) and reports 0 bytes read still runs the whole
pipeline on whatever the buffer holds and still fires the actuator: the
trigger fires at timestamp 32 and the relay is toggled on. -/
theorem read_failure_still_triggers_cex :
    (loopCycle s0 ⟨true, 0, 32, snapMags⟩).2.1 = some 32 ∧
    (loopCycle s0 ⟨true, 0, 32, snapMags⟩).1.relay.state = true := by
  rw [loopCycle_snapMags]
  exact ⟨rfl, by decide⟩

/-- C8: the Event Classifier is pure and stateless — the trigger decision
of a cycle equals the classifier applied to that cycle's
(dominant frequency, peak magnitude) alone, so two cycles run from any two
debounce states on the same frame make the same classification. -/
theorem classify_stateless (s1 s2 : LoopState) (inp : CycleInput) :
    ((loopCycle s1 inp).2.1.isSome
        = classify (dominantFreq (findPeak inp.mags).1 : ℚ) (findPeak inp.mags).2) ∧
    (loopCycle s1 inp).2.1.isSome = (loopCycle s2 inp).2.1.isSome := by
  by_cases h : classify (dominantFreq (findPeak inp.mags).1 : ℚ) (findPeak inp.mags).2
  · rw [loopCycle_snap s1 inp h, loopCycle_snap s2 inp h, h]
    exact ⟨rfl, rfl⟩
  · rw [loopCycle_nosnap s1 inp (by simpa using h), loopCycle_nosnap s2 inp (by simpa using h)]
    simp [h]

/-- C3: the Event Classifier returns true iff the dominant frequency lies
strictly inside (2000, 5000) and the peak magnitude strictly exceeds 6000;
in particular a dominant frequency exactly at the 5000 band edge yields
false for every magnitude. -/
theorem classify_band_iff (f m : ℚ) :
    (classify f m = true ↔ 2000 < f ∧ f < 5000 ∧ 6000 < m) ∧
    classify (5000 : ℚ) m = false := by
  constructor
  · simp [classify, and_assoc]
  · simp [classify]

/-- C3 witness: the classifier evaluated strictly inside the band and at
the 5000 Hz band edge. -/
theorem classify_band_iff_witness :
    classify (3000 : ℚ) 8000 = true ∧ classify (5000 : ℚ) 8000 = false :=
  ⟨(classify_band_iff 3000 8000).1.mpr (by norm_num), (classify_band_iff 5000 8000).2⟩

/-- C9: Relay::toggle turns the relay on exactly when the recorded state
is off and off exactly when it is on; toggling twice restores the recorded
state, the written pin level then equals the level Relay writes for that
state, and when the starting level is the one written for the starting
state, two toggles restore the object exactly. -/
theorem relay_toggle_involutive (r : Relay) :
    (r.toggle.state = !r.state) ∧
    (r.state = false → r.toggle = r.on) ∧
    (r.state = true → r.toggle = r.off) ∧
    (r.toggle.toggle.state = r.state) ∧
    (r.toggle.toggle.level = Relay.levelFor r.invertLogic r.state) ∧
    (r.level = Relay.levelFor r.invertLogic r.state → r.toggle.toggle = r) := by
  obtain ⟨p, s, inv, l⟩ := r
  cases s <;>
    simp [Relay.toggle, Relay.on, Relay.off, Relay.levelFor] <;>
    (intro h; simp [h])

/-- C9 witness: the theorem applied to the relay object as the sketch
starts it (pin 20, state off, active-high, LOW written). -/
theorem relay_toggle_involutive_witness :
    (Relay.mk 20 false false false).level
        = Relay.levelFor (Relay.mk 20 false false false).invertLogic
            (Relay.mk 20 false false false).state ∧
    (Relay.mk 20 false false false).toggle.toggle = Relay.mk 20 false false false :=
  ⟨by decide, (relay_toggle_involutive (Relay.mk 20 false false false)).2.2.2.2.2 (by decide)⟩

/-- C10: I2SDevice::read returns 0 bytes and never reaches the i2s_read
driver call when the device is not initialized or not in RX mode, and the
device state is unchanged in every case; when initialized and in RX mode
it delegates to the driver and returns the byte count the driver reports,
independent of the driver's error code (which is only logged). -/
theorem i2sdevice_read_spec (d : I2SDevice) (driverBytes : Nat) (e1 e2 : Bool) :
    (d.read driverBytes e1 =
      if d.initDone && d.rxMode then ⟨driverBytes, true, d⟩
      else ⟨0, false, d⟩) ∧
    d.read driverBytes e1 = d.read driverBytes e2 := by
  cases hI : d.initDone <;> cases hR : d.rxMode <;>
    simp [I2SDevice.read, hI, hR]

/-- Floor division equals Euclidean division for the positive shift
divisor 2^14, so omega can reason about the arithmetic shift. -/
theorem fdiv_shift_eq (w : Int) : Int.fdiv w 16384 = w / 16384 :=
  Int.fdiv_eq_ediv w (by norm_num)

/-- C6 (amended): the preprocessor right-shifts each raw 32-bit word by 14
and then truncates the result to a signed 16-bit value (wrap modulo 2^16
into the int16_t range) before the exact cast to float; the truncation is
the identity exactly when the shifted word fits in int16_t, i.e. when the
raw word lies in the range of -2^29 up to 2^29; and the imaginary array is
reset to zero at every index on every cycle. -/
theorem preprocess_shift_spec (w : Int) :
    (-32768 ≤ preprocessSample w ∧ preprocessSample w < 32768) ∧
    (preprocessSample w - specShiftedSample w) % 65536 = 0 ∧
    (-536870912 ≤ w → w < 536870912 → preprocessSample w = specShiftedSample w) ∧
    (∀ (buffer : Nat → Int) (i : Nat), (preprocessFrame buffer).2 i = 0) := by
  refine ⟨?_, ?_, ?_, fun buffer i => rfl⟩ <;>
    simp only [preprocessSample, specShiftedSample, toInt16, fdiv_shift_eq] <;>
    omega

/-- C6 witness: a raw word of 1000000 shifts to 61, which fits in int16_t,
so the code's preprocessing and the plain shift agree there. -/
theorem preprocess_shift_spec_witness :
    (-536870912 : Int) ≤ 1000000 ∧
    preprocessSample 1000000 = specShiftedSample 1000000 :=
  ⟨by norm_num, (preprocess_shift_spec 1000000).2.2.1 (by norm_num) (by norm_num)⟩

/-- C6 (counterexample to the claim as stated): the raw 32-bit word 2^30 =
1073741824 right-shifted by 14 is 65536, but the code stores it through an
int16_t, which truncates it to 0 — the value the preprocessor actually
writes differs from the plain shift-and-cast the claim describes. -/
theorem preprocess_truncation_cex :
    preprocessSample 1073741824 = 0 ∧
    specShiftedSample 1073741824 = 65536 ∧
    preprocessSample 1073741824 ≠ specShiftedSample 1073741824 := by decide

/-- Invariant of the running-maximum scan: over the index window of length
fuel starting at i, the scan either keeps its carried pair (when no value
in the window exceeds the carried peak) or returns the first index of the
window's maximum, which then exceeds the carried peak, bounds the whole
window from above and strictly exceeds every window value before it. -/
theorem findPeakGo_inv {α : Type} [LinearOrderedField α] (v : Nat → α) :
    ∀ (fuel i bi : Nat) (bv : α),
      (findPeakGo v fuel i bi bv = (bi, bv) ∧
        ∀ j, i ≤ j → j < i + fuel → v j ≤ bv) ∨
      (∃ k, i ≤ k ∧ k < i + fuel ∧ findPeakGo v fuel i bi bv = (k, v k) ∧
        bv < v k ∧ (∀ j, i ≤ j → j < i + fuel → v j ≤ v k) ∧
        (∀ j, i ≤ j → j < k → v j < v k)) := by
  intro fuel
  induction fuel with
  | zero =>
    intro i bi bv
    left
    exact ⟨rfl, fun j h1 h2 => absurd h2 (by omega)⟩
  | succ fuel ih =>
    intro i bi bv
    by_cases h : v i > bv
    · rcases ih (i+1) i (v i) with ⟨heq, hb⟩ | ⟨k, hk1, hk2, heq, hlt, hub, hfirst⟩
      · right
        refine ⟨i, le_refl i, by omega, ?_, h, ?_, ?_⟩
        · simp [findPeakGo, h, heq]
        · intro j h1 h2
          rcases Nat.eq_or_lt_of_le h1 with rfl | h1
          · exact le_refl _
          · exact hb j h1 (by omega)
        · intro j h1 h2
          exact absurd h2 (by omega)
      · right
        refine ⟨k, by omega, by omega, ?_, lt_trans h hlt, ?_, ?_⟩
        · simp [findPeakGo, h, heq]
        · intro j h1 h2
          rcases Nat.eq_or_lt_of_le h1 with rfl | h1
          · exact le_of_lt hlt
          · exact hub j h1 (by omega)
        · intro j h1 h2
          rcases Nat.eq_or_lt_of_le h1 with rfl | h1
          · exact hlt
          · exact hfirst j h1 h2
    · rcases ih (i+1) bi bv with ⟨heq, hb⟩ | ⟨k, hk1, hk2, heq, hlt, hub, hfirst⟩
      · left
        refine ⟨by simp [findPeakGo, h, heq], ?_⟩
        intro j h1 h2
        rcases Nat.eq_or_lt_of_le h1 with rfl | h1
        · exact not_lt.mp h
        · exact hb j h1 (by omega)
      · right
        refine ⟨k, by omega, by omega, by simp [findPeakGo, h, heq], hlt, ?_, ?_⟩
        · intro j h1 h2
          rcases Nat.eq_or_lt_of_le h1 with rfl | h1
          · exact le_of_lt (lt_of_le_of_lt (not_lt.mp h) hlt)
          · exact hub j h1 (by omega)
        · intro j h1 h2
          rcases Nat.eq_or_lt_of_le h1 with rfl | h1
          · exact lt_of_le_of_lt (not_lt.mp h) hlt
          · exact hfirst j h1 h2

/-- C4 (amended): the peak scan reads only bins 1..255 and keeps the
running maximum: the returned magnitude bounds every scanned bin; when the
returned magnitude is strictly positive the returned index is a scanned
bin attaining it, and among the scanned bins attaining it the lowest (the
tie-break); when no scanned bin is strictly positive the scan returns the
pair (0, 0) — index 0, the excluded DC bin, not the lowest scanned index —
because both locals start at peak = 0.0, peakIndex = 0 and the strict
comparison never updates them; the dominant frequency is the returned
index times sample_rate / N = 16000 / 512. -/
theorem findPeak_scan_spec {α : Type} [LinearOrderedField α] (v : Nat → α) :
    (∀ j, 1 ≤ j → j < 256 → v j ≤ (findPeak v).2) ∧
    (0 < (findPeak v).2 →
      (1 ≤ (findPeak v).1 ∧ (findPeak v).1 < 256) ∧
      v (findPeak v).1 = (findPeak v).2 ∧
      (∀ j, 1 ≤ j → j < 256 → v j = (findPeak v).2 → (findPeak v).1 ≤ j)) ∧
    ((∀ j, 1 ≤ j → j < 256 → v j ≤ 0) → findPeak v = (0, 0)) ∧
    dominantFreq (findPeak v).1 = ((findPeak v).1 : α) * ((16000 : α) / 512) := by
  rcases findPeakGo_inv v 255 1 0 0 with ⟨heq, hb⟩ | ⟨k, hk1, hk2, heq, hpos, hub, hfirst⟩
  · have hfp : findPeak v = (0, 0) := heq
    refine ⟨?_, ?_, fun _ => hfp, rfl⟩
    · intro j h1 h2
      rw [hfp]
      exact hb j h1 (by omega)
    · intro hgt
      rw [hfp] at hgt
      exact absurd hgt (by norm_num)
  · have hfp : findPeak v = (k, v k) := heq
    refine ⟨?_, ?_, ?_, rfl⟩
    · intro j h1 h2
      rw [hfp]
      exact hub j h1 (by omega)
    · intro _
      rw [hfp]
      refine ⟨⟨hk1, by omega⟩, rfl, ?_⟩
      intro j h1 h2 hj
      by_contra hkj
      push_neg at hkj
      have hjk := hfirst j h1 hkj
      rw [hj] at hjk
      exact absurd hjk (lt_irrefl _)
    · intro hall
      exact absurd hpos (not_lt.mpr (hall k hk1 (by omega)))

/-- C4 witness: the spec applied to the single-spike array witMags, whose
maximum 7 sits at bin 3. -/
theorem findPeak_scan_spec_witness :
    witMags 9 ≤ (findPeak witMags).2 ∧
    (0 : ℚ) < (findPeak witMags).2 ∧
    (findPeak witMags).1 ≤ 3 :=
  ⟨(findPeak_scan_spec witMags).1 9 (by norm_num) (by norm_num),
   by decide,
   (((findPeak_scan_spec witMags).2.1 (by decide)).2.2) 3 (by norm_num) (by norm_num)
     (by decide)⟩

/-- C4 (counterexample to the claim as stated): on the all-zero magnitude
array, bins 1 and 2 (and all scanned bins) tie at the maximal scanned
magnitude 0, yet the scan returns index 0 — the excluded DC bin — and not
the lowest tying scanned index 1, because the strict comparison against
the initial peak = 0.0 never updates peakIndex. -/
theorem findPeak_zero_tie_cex :
    findPeak zeroMags = (0, 0) ∧ zeroMags 1 = zeroMags 2 ∧
    zeroMags 1 = (findPeak zeroMags).2 ∧ (findPeak zeroMags).1 ≠ 1 := by decide

/-- The scan never updates its carried pair when no value exceeds the
carried peak. -/
theorem findPeakGo_no_update {α : Type} [LinearOrderedField α] (v : Nat → α)
    (bv : α) (h : ∀ j, ¬ bv < v j) :
    ∀ (fuel i bi : Nat), findPeakGo v fuel i bi bv = (bi, bv) := by
  intro fuel
  induction fuel with
  | zero => intro i bi; rfl
  | succ fuel ih =>
    intro i bi
    simp [findPeakGo, h i, ih]

/-- Windowing of the all-zero frame is all-zero. -/
theorem windowing_zero : windowing (fun _ => 0) = fun _ => 0 := by
  funext j
  simp [windowing]

/-- Every transform bin of the all-zero frame is zero. -/
theorem dft_zero (k : Nat) : dft (fun _ => 0) k = 0 := by
  simp [dft]

/-- Every magnitude of the all-zero frame is zero. -/
theorem analyze_zero : analyze (fun _ => 0) = fun _ => 0 := by
  funext k
  simp [analyze, complexToMagnitude, windowing_zero, dft_zero]

/-- The preprocessor maps the zero raw word to zero. -/
theorem preprocessSample_zero : preprocessSample 0 = 0 := by decide

/-- C7: for every frame whose raw samples are all zero, the preprocessed
real array is all zero, the (spec-modelled) spectral analysis yields zero
magnitude in every bin, the extracted peak magnitude is 0, and the
classifier returns false on the frame, so no trigger fires. -/
theorem zero_frame_no_event (buffer : Nat → Int) (h : ∀ i, buffer i = 0) :
    (findPeak (analyze (fun i => (((preprocessFrame buffer).1 i : Int) : ℝ)))).2 = 0 ∧
    framePipeline buffer = false := by
  have hreal : (fun i => (((preprocessFrame buffer).1 i : Int) : ℝ)) = fun _ => (0 : ℝ) := by
    funext i
    simp [preprocessFrame, h i, preprocessSample_zero]
  have hfp : findPeak (analyze (fun i => (((preprocessFrame buffer).1 i : Int) : ℝ))) = (0, 0) := by
    rw [hreal, analyze_zero]
    exact findPeakGo_no_update _ 0 (fun j => by norm_num) 255 1 0
  constructor
  · rw [hfp]
  · show classify
        (dominantFreq (findPeak (analyze (fun i => (((preprocessFrame buffer).1 i : Int) : ℝ)))).1 : ℝ)
        (findPeak (analyze (fun i => (((preprocessFrame buffer).1 i : Int) : ℝ)))).2 = false
    rw [hfp]
    simp [classify, dominantFreq]

/-- C7 witness: the zero-frame theorem applied to the all-zero buffer. -/
theorem zero_frame_no_event_witness :
    zeroBuffer 5 = 0 ∧ framePipeline zeroBuffer = false :=
  ⟨rfl, (zero_frame_no_event zeroBuffer (fun _ => rfl)).2⟩
